import Mathlib

/-!
Shallow embedding of the mutex core in `stl/src/mutex.cpp` (the ConcRT-style
mutex of the Microsoft STL): the state machine of owner thread id, recursion
count and mode flags built over an opaque critical section, together with the
public entry points `_Mtx_init`, `_Mtx_destroy`, `_Mtx_lock`, `_Mtx_trylock`,
`_Mtx_timedlock`, `_Mtx_unlock`, `_Mtx_current_owns`, `_Mtx_clear_owner` and
`_Mtx_reset_owner`.

Modelling conventions:
* Machine integers (`int`, `long`, `__time64_t`) become `Int`; the mode word
  (`int type`, always built from non-negative flag constants) becomes `Nat`
  with bitwise masks taken modulo the 32-bit two's-complement image.
* The opaque critical section is represented by a single `csLocked : Bool`
  field: `lock` returns only once acquired (so its observable effect is
  `csLocked := true`), `try_lock` succeeds exactly when the section is free,
  `unlock` clears the flag.
* The current thread id (`GetCurrentThreadId()` cast to `long`) is an explicit
  `Int` parameter `tid`; the no-owner sentinel is `-1`.
* The clock (`_Timespec64_get_sys`) in the timed-wait loop is an explicit
  oracle: the list of successive samples the loop reads.  An exhausted list
  means every later sample is at or past the target (a real clock eventually
  passes any deadline), which makes the loop exit with its pending
  `WAIT_TIMEOUT` exactly as one further late sample would.
* `_THREAD_ASSERT` only aborts when the translation unit is built with
  `_THREAD_CHECK` or `_DEBUG`; the Boolean parameter `check` selects that
  build flavour, and an abort (`_Thrd_abort`) is the `none` outcome.
-/

/-- Result codes of the `_Thrd_result` family used by `mutex.cpp`
(`_Thrd_success`, `_Thrd_nomem`, `_Thrd_timedout`, `_Thrd_busy`,
`_Thrd_error`). -/
inductive ThrdResult where
  | success
  | nomem
  | timedout
  | busy
  | error
deriving DecidableEq, Repr

/-- Windows wait codes observed by `mtx_do_lock`: `WAIT_OBJECT_0`,
`WAIT_TIMEOUT`, `WAIT_ABANDONED`. -/
inductive WaitRes where
  | obj0
  | timeout
  | abandoned
deriving DecidableEq, Repr

/-- `_timespec64`: seconds and nanoseconds, as used for absolute deadlines. -/
structure Timespec where
  tv_sec : Int
  tv_nsec : Int
deriving DecidableEq, Repr

/-- The mutex state `_Mtx_internal_imp_t`: mode word `type`, the critical
section (reduced to its lock flag), owning `thread_id` (`-1` when unowned)
and recursion `count`. -/
structure Mtx where
  type : Nat
  csLocked : Bool
  thread_id : Int
  count : Int
deriving DecidableEq, Repr

/-- Modelled from the spec: the mode flag constants are declared in
`xthreads.h`, which is not part of the sources here; per the spec the mode is
"{plain | recursive} × {supports-try, supports-timed}" with plain and
recursive exclusive and try/timed independent toggles, so the flags are
distinct bits (the values are the MSVC ones). `_Mtx_plain` flag. -/
def _Mtx_plain : Nat := 0x01

/-- Modelled from the spec: `_Mtx_try` flag from `xthreads.h` (see
`_Mtx_plain`). -/
def _Mtx_try : Nat := 0x02

/-- Modelled from the spec: `_Mtx_timed` flag from `xthreads.h` (see
`_Mtx_plain`). -/
def _Mtx_timed : Nat := 0x04

/-- Modelled from the spec: `_Mtx_recursive` flag from `xthreads.h` (see
`_Mtx_plain`). -/
def _Mtx_recursive : Nat := 0x100

/-- The 32-bit two's-complement image of `~_Mtx_recursive`, as produced by the
C expression `mtx->type & ~_Mtx_recursive` on a non-negative `int` mode
word. -/
def notRecursiveMask : Nat := 0xFFFFFEFF

/-- Modelled from the spec: the critical section's blocking `lock`
(`Concurrency::details::stl_critical_section` from `primitives.hpp`, an
external collaborator the spec assumes correct).  It returns only once the
section is acquired, so its observable effect on the state is that the
section is now held.  A call that must wait for a foreign holder resumes only
after that holder's release — which in the protocol also resets the owner
bookkeeping to depth 0 — so this single-call model is faithful only when the
section is free or already belongs to the caller's bookkeeping; theorems
whose paths could block on a foreign holder carry hypotheses keeping them off
that case. -/
def csLock (m : Mtx) : Mtx := { m with csLocked := true }

/-- Modelled from the spec: the critical section's non-blocking `try_lock`;
succeeds exactly when the section is currently free. -/
def csTryLock (m : Mtx) : Bool × Mtx :=
  if m.csLocked then (false, m) else (true, { m with csLocked := true })

/-- Modelled from the spec: the critical section's `unlock`. -/
def csUnlock (m : Mtx) : Mtx := { m with csLocked := false }

/-- The strict `<` comparison on `_timespec64` used at lines 111 and 126 of
`mutex.cpp`: `a.tv_sec < b.tv_sec || a.tv_sec == b.tv_sec && a.tv_nsec <
b.tv_nsec`. -/
def tsLt (a b : Timespec) : Prop :=
  a.tv_sec < b.tv_sec ∨ (a.tv_sec = b.tv_sec ∧ a.tv_nsec < b.tv_nsec)

instance (a b : Timespec) : Decidable (tsLt a b) := by
  unfold tsLt; infer_instance

/-- The polling loop of `mtx_do_lock` (lines 123-137): while the sampled time
is before the target, stop with `WAIT_OBJECT_0` as soon as the calling thread
is the recorded owner or `try_lock` succeeds, otherwise keep the pending
`WAIT_TIMEOUT` and resample.  `clock` is the list of successive clock
samples; an empty list stands for a next sample at or past the target. -/
def timedWaitLoop (tid : Int) (target : Timespec) : Mtx → List Timespec → WaitRes × Mtx
  | m, [] => (WaitRes.timeout, m)
  | m, now :: rest =>
    if tsLt now target then
      if m.thread_id = tid then (WaitRes.obj0, m)
      else
        match csTryLock m with
        | (true, m2) => (WaitRes.obj0, m2)
        | (false, m2) => timedWaitLoop tid target m2 rest
    else (WaitRes.timeout, m)

/-- The wait phase of the general path of `mtx_do_lock` (lines 103-138):
dispatch on the deadline (`none` = null target pointer) and produce a wait
code together with the updated state. -/
def lockWait (tid : Int) (m : Mtx) (target : Option Timespec) (clock : List Timespec) :
    WaitRes × Mtx :=
  match target with
  | none =>
    let m1 := if m.thread_id ≠ tid then csLock m else m
    (WaitRes.obj0, m1)
  | some t =>
    if t.tv_sec < 0 ∨ (t.tv_sec = 0 ∧ t.tv_nsec ≤ 0) then
      if m.thread_id ≠ tid then
        match csTryLock m with
        | (true, m1) => (WaitRes.obj0, m1)
        | (false, m1) => (WaitRes.timeout, m1)
      else (WaitRes.obj0, m)
    else
      timedWaitLoop tid t m clock

/-- The count-fixup phase of `mtx_do_lock` (lines 140-149): on a granted wait,
increment `count`; a resulting `count > 1` on a non-recursive mutex is a
re-acquisition collision, undone and turned into `WAIT_TIMEOUT`; a first
acquisition records the owner. -/
def lockFixup (tid : Int) (p : WaitRes × Mtx) : WaitRes × Mtx :=
  if p.1 = WaitRes.obj0 ∨ p.1 = WaitRes.abandoned then
    let m2 := { p.2 with count := p.2.count + 1 }
    if 1 < m2.count then
      if m2.type &&& _Mtx_recursive ≠ _Mtx_recursive then
        (WaitRes.timeout, { m2 with count := m2.count - 1 })
      else (p.1, m2)
    else (p.1, { m2 with thread_id := tid })
  else p

/-- The result-mapping switch of `mtx_do_lock` (lines 151-165): granted waits
report success; `WAIT_TIMEOUT` reports busy for a null or exactly-zero target
and timed-out otherwise. -/
def lockResult (target : Option Timespec) (p : WaitRes × Mtx) : ThrdResult × Mtx :=
  match p.1 with
  | WaitRes.obj0 => (ThrdResult.success, p.2)
  | WaitRes.abandoned => (ThrdResult.success, p.2)
  | WaitRes.timeout =>
    match target with
    | none => (ThrdResult.busy, p.2)
    | some t =>
      if t.tv_sec = 0 ∧ t.tv_nsec = 0 then (ThrdResult.busy, p.2)
      else (ThrdResult.timedout, p.2)

/-- `mtx_do_lock` (lines 93-167): the single acquire algorithm.  A mode word
whose non-recursive bits are exactly `_Mtx_plain` takes the fast path
(re-entrant bump of `count`, blocking acquire only when not already the
owner); every other mode goes through wait, fixup and result mapping. -/
def mtx_do_lock (tid : Int) (m : Mtx) (target : Option Timespec) (clock : List Timespec) :
    ThrdResult × Mtx :=
  if m.type &&& notRecursiveMask = _Mtx_plain then
    let m1 :=
      if m.thread_id ≠ tid then
        { csLock m with thread_id := tid }
      else m
    (ThrdResult.success, { m1 with count := m1.count + 1 })
  else
    lockResult target (lockFixup tid (lockWait tid m target clock))

/-- `_Mtx_lock` (lines 180-182): blocking lock, a null target. -/
def _Mtx_lock (tid : Int) (m : Mtx) : ThrdResult × Mtx :=
  mtx_do_lock tid m none []

/-- `_Mtx_trylock` (lines 184-190): asserts try or timed support in checked
builds (`none` = abort), then acquires with an all-zero target. -/
def _Mtx_trylock (check : Bool) (tid : Int) (m : Mtx) : Option (ThrdResult × Mtx) :=
  if check = true ∧ m.type &&& (_Mtx_try ||| _Mtx_timed) = 0 then none
  else some (mtx_do_lock tid m (some { tv_sec := 0, tv_nsec := 0 }) [])

/-- `_Mtx_timedlock` (lines 192-198): asserts timed support in checked builds,
acquires with the given target, then maps a busy outcome to timed-out. -/
def _Mtx_timedlock (check : Bool) (tid : Int) (m : Mtx) (xt : Timespec)
    (clock : List Timespec) : Option (ThrdResult × Mtx) :=
  if check = true ∧ m.type &&& _Mtx_timed = 0 then none
  else
    let r := mtx_do_lock tid m (some xt) clock
    some (if r.1 = ThrdResult.busy then (ThrdResult.timedout, r.2) else r)

/-- `_Mtx_unlock` (lines 169-178): asserts `1 <= count` and ownership in
checked builds (`none` = abort), decrements `count`, and on reaching zero
clears the owner and releases the critical section; always reports
success. -/
def _Mtx_unlock (check : Bool) (tid : Int) (m : Mtx) : Option (ThrdResult × Mtx) :=
  if check = true ∧ ¬(1 ≤ m.count ∧ m.thread_id = tid) then none
  else
    let m1 := { m with count := m.count - 1 }
    if m1.count = 0 then
      some (ThrdResult.success, csUnlock { m1 with thread_id := -1 })
    else some (ThrdResult.success, m1)

/-- `_Mtx_current_owns` (lines 200-202). -/
def _Mtx_current_owns (tid : Int) (m : Mtx) : Bool :=
  m.count ≠ 0 && m.thread_id = tid

/-- `_Mtx_clear_owner` (lines 208-211): disown. -/
def _Mtx_clear_owner (m : Mtx) : Mtx :=
  { m with thread_id := -1, count := m.count - 1 }

/-- `_Mtx_reset_owner` (lines 213-216): reclaim. -/
def _Mtx_reset_owner (tid : Int) (m : Mtx) : Mtx :=
  { m with thread_id := tid, count := m.count + 1 }

/-- `_Mtx_init_in_situ` (lines 59-64): construct the critical section, no
owner, the requested mode, zero count. -/
def _Mtx_init_in_situ (type : Nat) : Mtx :=
  { type := type, csLocked := false, thread_id := -1, count := 0 }

/-- `_Mtx_init` (lines 71-84): `allocOk` is the outcome of `_calloc_crt`;
failure reports `_Thrd_nomem` with a null handle, success constructs in situ
and hands the mutex back. -/
def _Mtx_init (allocOk : Bool) (type : Nat) : ThrdResult × Option Mtx :=
  if allocOk then (ThrdResult.success, some (_Mtx_init_in_situ type))
  else (ThrdResult.nomem, none)

/-- The observable actions of `_Mtx_destroy` on a non-null handle. -/
inductive DestroyAct where
  | destroyInSitu
  | free
deriving DecidableEq, Repr

/-- `_Mtx_destroy_in_situ` (lines 66-69): asserts `count == 0` in checked
builds; otherwise a no-op. -/
def _Mtx_destroy_in_situ (check : Bool) (m : Mtx) : Option Unit :=
  if check = true ∧ m.count ≠ 0 then none else some ()

/-- `_Mtx_destroy` (lines 86-91): a null handle does nothing; a non-null
handle is destroyed in situ and freed.  The returned list records the actions
performed; `none` is the checked-build abort from the in-situ assert. -/
def _Mtx_destroy (check : Bool) (h : Option Mtx) : Option (List DestroyAct) :=
  match h with
  | none => some []
  | some m =>
    match _Mtx_destroy_in_situ check m with
    | none => none
    | some _ => some [DestroyAct.destroyInSitu, DestroyAct.free]

/-- Depth stays in `{0, 1}`: the steady-state bound the spec states for
non-recursive mutexes. -/
def depthOk (m : Mtx) : Prop := m.count = 0 ∨ m.count = 1

/-- `depthOk` lifted to the outcome of a fallible operation: an abort
trivially preserves the bound, a normal return must satisfy it. -/
def depthOkOpt : Option (ThrdResult × Mtx) → Prop
  | none => True
  | some p => depthOk p.2

/-- `depthOk` lifted to an optional state (used to express an operation
guarded by its precondition: `none` when the precondition fails). -/
def depthOkMOpt : Option Mtx → Prop
  | none => True
  | some m => depthOk m

instance (m : Mtx) : Decidable (depthOk m) := by
  unfold depthOk; infer_instance

/-! ### Helper lemmas about the phases of the acquire algorithm -/

theorem timedWaitLoop_owner (tid : Int) (t : Timespec) (m : Mtx) (clock : List Timespec)
    (hown : m.thread_id = tid) :
    timedWaitLoop tid t m clock = (WaitRes.obj0, m) ∨
      timedWaitLoop tid t m clock = (WaitRes.timeout, m) := by
  cases clock with
  | nil => right; rfl
  | cons now rest =>
    by_cases h : tsLt now t
    · left; simp [timedWaitLoop, h, hown]
    · right; simp [timedWaitLoop, h]

theorem timedWaitLoop_invar (tid : Int) (t : Timespec) :
    ∀ (m : Mtx) (clock : List Timespec),
      (timedWaitLoop tid t m clock).2.count = m.count ∧
      (timedWaitLoop tid t m clock).2.type = m.type ∧
      ((timedWaitLoop tid t m clock).1 = WaitRes.obj0 ∨
        (timedWaitLoop tid t m clock).1 = WaitRes.timeout) := by
  intro m clock
  induction clock generalizing m with
  | nil => simp [timedWaitLoop]
  | cons now rest ih =>
    by_cases h : tsLt now t
    · by_cases ho : m.thread_id = tid
      · simp [timedWaitLoop, h, ho]
      · by_cases hcs : m.csLocked
        · simpa [timedWaitLoop, h, ho, csTryLock, hcs] using ih m
        · simp [timedWaitLoop, h, ho, csTryLock, hcs]
    · simp [timedWaitLoop, h]

theorem lockWait_owner (tid : Int) (m : Mtx) (target : Option Timespec)
    (clock : List Timespec) (hown : m.thread_id = tid) :
    lockWait tid m target clock = (WaitRes.obj0, m) ∨
      lockWait tid m target clock = (WaitRes.timeout, m) := by
  cases target with
  | none => left; simp [lockWait, hown]
  | some t =>
    by_cases hz : t.tv_sec < 0 ∨ (t.tv_sec = 0 ∧ t.tv_nsec ≤ 0)
    · left; simp [lockWait, hz, hown]
    · simpa [lockWait, hz] using timedWaitLoop_owner tid t m clock hown

theorem lockWait_invar (tid : Int) (m : Mtx) (target : Option Timespec)
    (clock : List Timespec) :
    (lockWait tid m target clock).2.count = m.count ∧
    (lockWait tid m target clock).2.type = m.type ∧
    ((lockWait tid m target clock).1 = WaitRes.obj0 ∨
      (lockWait tid m target clock).1 = WaitRes.timeout) := by
  cases target with
  | none => by_cases h : m.thread_id ≠ tid <;> simp [lockWait, h, csLock]
  | some t =>
    by_cases hz : t.tv_sec < 0 ∨ (t.tv_sec = 0 ∧ t.tv_nsec ≤ 0)
    · by_cases ho : m.thread_id ≠ tid
      · by_cases hcs : m.csLocked <;> simp [lockWait, hz, ho, csTryLock, hcs]
      · simp [lockWait, hz, ho]
    · simpa [lockWait, hz] using timedWaitLoop_invar tid t m clock

theorem lockResult_snd (target : Option Timespec) (p : WaitRes × Mtx) :
    (lockResult target p).2 = p.2 := by
  obtain ⟨w, m2⟩ := p
  cases w <;> cases target <;> simp [lockResult] <;> split <;> simp

theorem lockResult_timeout_code (target : Option Timespec) (m2 : Mtx) :
    (lockResult target (WaitRes.timeout, m2)).1 = ThrdResult.busy ∨
      (lockResult target (WaitRes.timeout, m2)).1 = ThrdResult.timedout := by
  cases target with
  | none => left; rfl
  | some t =>
    by_cases h : t.tv_sec = 0 ∧ t.tv_nsec = 0
    · left; simp [lockResult, h]
    · right; simp [lockResult, h]

theorem lockFixup_collision (tid : Int) (w : WaitRes) (m2 : Mtx)
    (hrec : m2.type &&& _Mtx_recursive ≠ _Mtx_recursive) (hdepth : 1 ≤ m2.count)
    (hw : w = WaitRes.obj0 ∨ w = WaitRes.abandoned) :
    lockFixup tid (w, m2) = (WaitRes.timeout, m2) := by
  have h1 : (1 : Int) < m2.count + 1 := by omega
  have h2 : m2.count + 1 - 1 = m2.count := by omega
  rcases hw with rfl | rfl <;> simp [lockFixup, h1, hrec, h2]

theorem lockFixup_timeout (tid : Int) (m2 : Mtx) :
    lockFixup tid (WaitRes.timeout, m2) = (WaitRes.timeout, m2) := by
  unfold lockFixup
  rw [if_neg (by simp)]

/-- Claim C1: a non-recursive mutex already owned by the calling context
(depth at least 1), acquired again through the general path (mode word not
reduced to plain), keeps its depth unchanged and the attempt is reported as
busy or timed-out, never success. -/
theorem C1_reacquire_not_granted (tid : Int) (m : Mtx) (target : Option Timespec)
    (clock : List Timespec)
    (hgen : m.type &&& notRecursiveMask ≠ _Mtx_plain)
    (hrec : m.type &&& _Mtx_recursive ≠ _Mtx_recursive)
    (hown : m.thread_id = tid) (hdepth : 1 ≤ m.count) :
    (mtx_do_lock tid m target clock).2.count = m.count ∧
      ((mtx_do_lock tid m target clock).1 = ThrdResult.busy ∨
        (mtx_do_lock tid m target clock).1 = ThrdResult.timedout) := by
  unfold mtx_do_lock
  rw [if_neg hgen]
  rcases lockWait_owner tid m target clock hown with hw | hw <;> rw [hw]
  · rw [lockFixup_collision tid WaitRes.obj0 m hrec hdepth (Or.inl rfl)]
    exact ⟨by rw [lockResult_snd], lockResult_timeout_code target m⟩
  · rw [lockFixup_timeout]
    exact ⟨by rw [lockResult_snd], lockResult_timeout_code target m⟩

/-- Witness for C1 at a concrete timed non-recursive mutex already owned by
thread 7, with a zero deadline. -/
theorem C1_reacquire_not_granted_witness :
    ((⟨5, true, 7, 1⟩ : Mtx).type &&& notRecursiveMask ≠ _Mtx_plain) ∧
    ((⟨5, true, 7, 1⟩ : Mtx).type &&& _Mtx_recursive ≠ _Mtx_recursive) ∧
    ((mtx_do_lock 7 ⟨5, true, 7, 1⟩ (some ⟨0, 0⟩) []).2.count = (⟨5, true, 7, 1⟩ : Mtx).count ∧
      ((mtx_do_lock 7 ⟨5, true, 7, 1⟩ (some ⟨0, 0⟩) []).1 = ThrdResult.busy ∨
        (mtx_do_lock 7 ⟨5, true, 7, 1⟩ (some ⟨0, 0⟩) []).1 = ThrdResult.timedout)) :=
  ⟨by decide, by decide,
    C1_reacquire_not_granted 7 ⟨5, true, 7, 1⟩ (some ⟨0, 0⟩) [] (by decide) (by decide)
      rfl (by decide)⟩

theorem timed_bit_general {t : Nat} (h : t &&& _Mtx_timed ≠ 0) :
    t &&& notRecursiveMask ≠ _Mtx_plain := by
  intro he
  apply h
  have h1 : (t &&& notRecursiveMask) &&& _Mtx_timed = t &&& _Mtx_timed := by
    rw [Nat.land_assoc]
    congr 1
  rw [he] at h1
  rw [← h1]
  decide

/-- Counterexample to claim C2: the mutex of timed type 5 is held by thread 3
with depth 1; thread 7 calls `_Mtx_timedlock` with the zero deadline (at or
before any current time) and receives timed-out, not busy, because line 197
maps the internal busy outcome to `_Thrd_timedout`. -/
theorem C2_counterexample :
    (⟨5, true, 3, 1⟩ : Mtx).thread_id ≠ (7 : Int) ∧
    _Mtx_timedlock false 7 ⟨5, true, 3, 1⟩ ⟨0, 0⟩ [] =
      some (ThrdResult.timedout, ⟨5, true, 3, 1⟩) ∧
    ThrdResult.timedout ≠ ThrdResult.busy := by decide

/-- Claim C2 as amended: on a timed-capable mutex held by a different context,
`_Mtx_timedlock` with a deadline at or before the current time (zero, negative,
or a past instant every clock sample is already at or beyond) returns
timed-out — the internal acquire reports busy for a null-or-zero target, but
`_Mtx_timedlock` maps busy to timed-out — and leaves the state unchanged. -/
theorem C2_amended_past_deadline (tid : Int) (m : Mtx) (xt : Timespec)
    (clock : List Timespec)
    (htimed : m.type &&& _Mtx_timed ≠ 0)
    (hother : m.thread_id ≠ tid) (hheld : m.csLocked = true)
    (hpast : ∀ s ∈ clock, ¬ tsLt s xt) :
    _Mtx_timedlock false tid m xt clock = some (ThrdResult.timedout, m) := by
  have hgen : m.type &&& notRecursiveMask ≠ _Mtx_plain := timed_bit_general htimed
  have hdo : mtx_do_lock tid m (some xt) clock = (ThrdResult.busy, m) ∨
      mtx_do_lock tid m (some xt) clock = (ThrdResult.timedout, m) := by
    unfold mtx_do_lock
    rw [if_neg hgen]
    by_cases hz : xt.tv_sec < 0 ∨ (xt.tv_sec = 0 ∧ xt.tv_nsec ≤ 0)
    · have hwait : lockWait tid m (some xt) clock = (WaitRes.timeout, m) := by
        simp [lockWait, hz, hother, csTryLock, hheld]
      rw [hwait, lockFixup_timeout]
      by_cases hzz : xt.tv_sec = 0 ∧ xt.tv_nsec = 0
      · left; simp [lockResult, hzz]
      · right; simp [lockResult, hzz]
    · have hwait : lockWait tid m (some xt) clock = (WaitRes.timeout, m) := by
        cases clock with
        | nil => simp [lockWait, hz, timedWaitLoop]
        | cons s rest =>
          have hs := hpast s (by simp)
          simp [lockWait, hz, timedWaitLoop, hs]
      rw [hwait, lockFixup_timeout]
      have hnz : ¬(xt.tv_sec = 0 ∧ xt.tv_nsec = 0) := by
        intro hc
        exact hz (Or.inr ⟨hc.1, by omega⟩)
      right; simp [lockResult, hnz]
  rcases hdo with h | h <;> simp [_Mtx_timedlock, h]

/-- Witness for the amended C2 at the counterexample's input. -/
theorem C2_amended_past_deadline_witness :
    ((⟨5, true, 3, 1⟩ : Mtx).type &&& _Mtx_timed ≠ 0) ∧
    ((⟨5, true, 3, 1⟩ : Mtx).thread_id ≠ (7 : Int)) ∧
    _Mtx_timedlock false 7 ⟨5, true, 3, 1⟩ ⟨0, 0⟩ [] =
      some (ThrdResult.timedout, ⟨5, true, 3, 1⟩) :=
  ⟨by decide, by decide,
    C2_amended_past_deadline 7 ⟨5, true, 3, 1⟩ ⟨0, 0⟩ [] (by decide) (by decide) rfl
      (by intro s hs; cases hs)⟩

/-- Counterexample to claim C3: `_Mtx_lock` (a `none` deadline) on a timed,
non-recursive mutex already owned by the calling thread 7 at depth 1 returns
busy, which the claim says a `None`-deadline acquire can never do. -/
theorem C3_counterexample :
    (_Mtx_lock 7 ⟨5, true, 7, 1⟩).1 = ThrdResult.busy ∧
    ThrdResult.busy ≠ ThrdResult.success ∧
    ThrdResult.busy ≠ ThrdResult.error := by decide

theorem lockResult_none_code (q : WaitRes × Mtx) :
    (lockResult none q).1 = ThrdResult.success ∨
      (lockResult none q).1 = ThrdResult.busy := by
  obtain ⟨w, m2⟩ := q
  cases w <;> simp [lockResult]

theorem lockFixup_obj0_code (tid : Int) (m1 : Mtx) :
    (lockFixup tid (WaitRes.obj0, m1)).1 =
      (if 1 ≤ m1.count ∧ m1.type &&& _Mtx_recursive ≠ _Mtx_recursive
       then WaitRes.timeout else WaitRes.obj0) := by
  unfold lockFixup
  rw [if_pos (Or.inl rfl)]
  by_cases hc : 1 ≤ m1.count
  · by_cases hr : m1.type &&& _Mtx_recursive ≠ _Mtx_recursive
    · have h1 : (1 : Int) < m1.count + 1 := by omega
      simp [h1, hr, hc]
    · have h1 : (1 : Int) < m1.count + 1 := by omega
      simp [h1, hr, hc]
  · have h1 : ¬((1 : Int) < m1.count + 1) := by omega
    simp [h1, hc]

/-- Claim C3 as amended: a `none`-deadline acquire (`_Mtx_lock`) that does not
have to wait for a section held by another context — the caller already owns
the mutex, or the critical section is free (and a free section under a
foreign or no owner means depth 0, the protocol's reachable-state invariant)
— returns busy exactly when the mutex takes the general path, is not
recursive, and is already owned by the calling context at depth at least 1
(the re-acquisition collision of lines 140-148), and success in every other
case; it never returns timed-out.  A call that must wait for another holder
resumes only after that holder's release at depth 0 and is outside the
single-call model. -/
theorem C3_amended_none_deadline_outcome (tid : Int) (m : Mtx)
    (hnb : m.thread_id = tid ∨ m.csLocked = false)
    (hwf : m.thread_id ≠ tid → m.csLocked = false → m.count = 0) :
    ((_Mtx_lock tid m).1 = ThrdResult.success ∨ (_Mtx_lock tid m).1 = ThrdResult.busy) ∧
    ((_Mtx_lock tid m).1 = ThrdResult.busy ↔
      m.type &&& notRecursiveMask ≠ _Mtx_plain ∧
        m.type &&& _Mtx_recursive ≠ _Mtx_recursive ∧
        m.thread_id = tid ∧ 1 ≤ m.count) := by
  unfold _Mtx_lock mtx_do_lock
  by_cases hplain : m.type &&& notRecursiveMask = _Mtx_plain
  · rw [if_pos hplain]
    refine ⟨Or.inl rfl, ?_⟩
    simp [hplain]
  · rw [if_neg hplain]
    by_cases ho : m.thread_id = tid
    · have hw : lockWait tid m none [] = (WaitRes.obj0, m) := by
        simp [lockWait, ho]
      rw [hw]
      refine ⟨lockResult_none_code _, ?_⟩
      have hcode := lockFixup_obj0_code tid m
      by_cases hcoll : 1 ≤ m.count ∧ m.type &&& _Mtx_recursive ≠ _Mtx_recursive
      · rw [if_pos hcoll] at hcode
        have hres : lockResult none (lockFixup tid (WaitRes.obj0, m)) =
            (ThrdResult.busy, (lockFixup tid (WaitRes.obj0, m)).2) := by
          unfold lockResult
          rw [hcode]
        rw [hres]
        constructor
        · intro _
          exact ⟨hplain, hcoll.2, ho, hcoll.1⟩
        · intro _
          rfl
      · rw [if_neg hcoll] at hcode
        have hres : lockResult none (lockFixup tid (WaitRes.obj0, m)) =
            (ThrdResult.success, (lockFixup tid (WaitRes.obj0, m)).2) := by
          unfold lockResult
          rw [hcode]
        rw [hres]
        constructor
        · intro hc; cases hc
        · rintro ⟨-, hr, -, hc⟩
          exact absurd ⟨hc, hr⟩ hcoll
    · have hcs : m.csLocked = false := by
        rcases hnb with h | h
        · exact absurd h ho
        · exact h
      have hc0 : m.count = 0 := hwf ho hcs
      have hw : lockWait tid m none [] = (WaitRes.obj0, csLock m) := by
        simp [lockWait, ho]
      rw [hw]
      have hcode := lockFixup_obj0_code tid (csLock m)
      have hncoll : ¬(1 ≤ (csLock m).count ∧
          (csLock m).type &&& _Mtx_recursive ≠ _Mtx_recursive) := by
        rintro ⟨h1, -⟩
        have hcc : (csLock m).count = m.count := rfl
        rw [hcc, hc0] at h1
        omega
      rw [if_neg hncoll] at hcode
      have hres : lockResult none (lockFixup tid (WaitRes.obj0, csLock m)) =
          (ThrdResult.success, (lockFixup tid (WaitRes.obj0, csLock m)).2) := by
        unfold lockResult
        rw [hcode]
      rw [hres]
      refine ⟨Or.inl rfl, ?_⟩
      constructor
      · intro hc; cases hc
      · rintro ⟨-, -, hot, -⟩
        exact absurd hot ho

/-- Witness for the amended C3 at the counterexample's input: thread 7 holds
the timed non-recursive mutex at depth 1 and locks it again with no
deadline. -/
theorem C3_amended_none_deadline_outcome_witness :
    ((⟨5, true, 7, 1⟩ : Mtx).thread_id = 7 ∨ (⟨5, true, 7, 1⟩ : Mtx).csLocked = false) ∧
    (((_Mtx_lock 7 ⟨5, true, 7, 1⟩).1 = ThrdResult.success ∨
        (_Mtx_lock 7 ⟨5, true, 7, 1⟩).1 = ThrdResult.busy) ∧
      ((_Mtx_lock 7 ⟨5, true, 7, 1⟩).1 = ThrdResult.busy ↔
        (⟨5, true, 7, 1⟩ : Mtx).type &&& notRecursiveMask ≠ _Mtx_plain ∧
          (⟨5, true, 7, 1⟩ : Mtx).type &&& _Mtx_recursive ≠ _Mtx_recursive ∧
          (⟨5, true, 7, 1⟩ : Mtx).thread_id = 7 ∧ 1 ≤ (⟨5, true, 7, 1⟩ : Mtx).count)) :=
  ⟨Or.inl rfl,
    C3_amended_none_deadline_outcome 7 ⟨5, true, 7, 1⟩ (Or.inl rfl) (by decide)⟩

/-- Claim C4: unlock of a mutex the calling context owns at depth at least 1
decrements the count by exactly one, on reaching zero clears the owner and
releases the critical section, otherwise leaves owner and critical section
untouched, and always reports success (even in checked builds, since the
precondition satisfies the assert). -/
theorem C4_unlock_owned (check : Bool) (tid : Int) (m : Mtx)
    (hdepth : 1 ≤ m.count) (hown : m.thread_id = tid) :
    ∃ m2, _Mtx_unlock check tid m = some (ThrdResult.success, m2) ∧
      m2.count = m.count - 1 ∧ m2.type = m.type ∧
      (m.count = 1 → m2.thread_id = -1 ∧ m2.csLocked = false) ∧
      (1 < m.count → m2.thread_id = m.thread_id ∧ m2.csLocked = m.csLocked) := by
  have hns : ¬(check = true ∧ ¬(1 ≤ m.count ∧ m.thread_id = tid)) :=
    fun hc => hc.2 ⟨hdepth, hown⟩
  by_cases h0 : m.count - 1 = 0
  · refine ⟨csUnlock { { m with count := m.count - 1 } with thread_id := -1 },
      ?_, ?_, ?_, ?_, ?_⟩
    · simp only [_Mtx_unlock]
      rw [if_neg hns]
      simp [h0]
    · simp [csUnlock]
    · simp [csUnlock]
    · intro _; simp [csUnlock]
    · intro hgt; omega
  · refine ⟨{ m with count := m.count - 1 }, ?_, ?_, ?_, ?_, ?_⟩
    · simp only [_Mtx_unlock]
      rw [if_neg hns]
      simp [h0]
    · simp
    · simp
    · intro h1; omega
    · intro _; simp

/-- Witness for C4: thread 7 unlocks the timed mutex it owns at depth 1. -/
theorem C4_unlock_owned_witness :
    1 ≤ (⟨5, true, 7, 1⟩ : Mtx).count ∧ (⟨5, true, 7, 1⟩ : Mtx).thread_id = 7 ∧
    ∃ m2, _Mtx_unlock true 7 ⟨5, true, 7, 1⟩ = some (ThrdResult.success, m2) ∧
      m2.count = (⟨5, true, 7, 1⟩ : Mtx).count - 1 ∧ m2.type = (⟨5, true, 7, 1⟩ : Mtx).type ∧
      ((⟨5, true, 7, 1⟩ : Mtx).count = 1 → m2.thread_id = -1 ∧ m2.csLocked = false) ∧
      (1 < (⟨5, true, 7, 1⟩ : Mtx).count →
        m2.thread_id = (⟨5, true, 7, 1⟩ : Mtx).thread_id ∧
          m2.csLocked = (⟨5, true, 7, 1⟩ : Mtx).csLocked) :=
  ⟨by decide, rfl, C4_unlock_owned true 7 ⟨5, true, 7, 1⟩ (by decide) rfl⟩

/-- Claim C5: on the plain-mode fast path, a lock call by the owning context
just increments the count and succeeds; the whole rest of the state — in
particular the critical section — is untouched. -/
theorem C5_fast_path_reentrant (tid : Int) (m : Mtx)
    (hplain : m.type &&& notRecursiveMask = _Mtx_plain) (hown : m.thread_id = tid) :
    _Mtx_lock tid m = (ThrdResult.success, { m with count := m.count + 1 }) := by
  simp [_Mtx_lock, mtx_do_lock, hplain, hown]

/-- Witness for C5: thread 7 re-enters the plain mutex it owns at depth 1. -/
theorem C5_fast_path_reentrant_witness :
    ((⟨1, true, 7, 1⟩ : Mtx).type &&& notRecursiveMask = _Mtx_plain) ∧
    _Mtx_lock 7 ⟨1, true, 7, 1⟩ =
      (ThrdResult.success, { (⟨1, true, 7, 1⟩ : Mtx) with count := (1 : Int) + 1 }) :=
  ⟨by decide, C5_fast_path_reentrant 7 ⟨1, true, 7, 1⟩ (by decide) rfl⟩

/-- Claim C6: disown (`_Mtx_clear_owner`) immediately followed by reclaim
(`_Mtx_reset_owner`) by the owning context restores the exact prior state —
in the sequential model nothing else touches the critical section in
between — so the depth is unchanged and `_Mtx_current_owns` holds. -/
theorem C6_disown_reclaim_roundtrip (tid : Int) (m : Mtx)
    (hown : m.thread_id = tid) (hdepth : 1 ≤ m.count) :
    _Mtx_reset_owner tid (_Mtx_clear_owner m) = m ∧
      _Mtx_current_owns tid (_Mtx_reset_owner tid (_Mtx_clear_owner m)) = true := by
  have hc : m.count - 1 + 1 = m.count := by omega
  have hst : _Mtx_reset_owner tid (_Mtx_clear_owner m) = m := by
    simp only [_Mtx_clear_owner, _Mtx_reset_owner]
    rw [← hown]
    simp [hc]
  refine ⟨hst, ?_⟩
  rw [hst]
  simp only [_Mtx_current_owns, hown]
  simp
  omega

/-- Witness for C6: thread 7 disowns and reclaims the timed mutex it owns at
depth 2. -/
theorem C6_disown_reclaim_roundtrip_witness :
    ((⟨5, true, 7, 2⟩ : Mtx).thread_id = 7) ∧
    (_Mtx_reset_owner 7 (_Mtx_clear_owner ⟨5, true, 7, 2⟩) = ⟨5, true, 7, 2⟩ ∧
      _Mtx_current_owns 7 (_Mtx_reset_owner 7 (_Mtx_clear_owner ⟨5, true, 7, 2⟩)) = true) :=
  ⟨rfl, C6_disown_reclaim_roundtrip 7 ⟨5, true, 7, 2⟩ rfl (by decide)⟩

theorem lockFixup_count (tid : Int) (p : WaitRes × Mtx)
    (hrec : p.2.type &&& _Mtx_recursive ≠ _Mtx_recursive) :
    (lockFixup tid p).2.count = p.2.count ∨
      ((lockFixup tid p).2.count = p.2.count + 1 ∧ p.2.count ≤ 0) := by
  obtain ⟨w, m2⟩ := p
  cases w with
  | timeout => left; simp [lockFixup]
  | obj0 =>
    by_cases h1 : (1 : Int) < m2.count + 1
    · left
      simp [lockFixup, h1, hrec]
    · right
      exact ⟨by simp [lockFixup, h1], (by omega : m2.count ≤ 0)⟩
  | abandoned =>
    by_cases h1 : (1 : Int) < m2.count + 1
    · left
      simp [lockFixup, h1, hrec]
    · right
      exact ⟨by simp [lockFixup, h1], (by omega : m2.count ≤ 0)⟩

theorem mtx_do_lock_depthOk (tid : Int) (m : Mtx) (target : Option Timespec)
    (clock : List Timespec)
    (hgen : m.type &&& notRecursiveMask ≠ _Mtx_plain)
    (hrec : m.type &&& _Mtx_recursive ≠ _Mtx_recursive)
    (hok : depthOk m) :
    depthOk (mtx_do_lock tid m target clock).2 := by
  unfold mtx_do_lock
  rw [if_neg hgen]
  obtain ⟨hc, ht, -⟩ := lockWait_invar tid m target clock
  rw [lockResult_snd]
  have hrec2 : (lockWait tid m target clock).2.type &&& _Mtx_recursive ≠ _Mtx_recursive := by
    rw [ht]; exact hrec
  rcases lockFixup_count tid (lockWait tid m target clock) hrec2 with h | ⟨h, hle⟩ <;>
    · unfold depthOk at hok ⊢
      omega

/-- Counterexample to claim C7: a plain non-recursive mutex owned by thread 7
at depth 1 is locked again by thread 7 through the public lock operation; the
fast path grants it and depth becomes 2, outside {0, 1}. -/
theorem C7_counterexample :
    ((⟨1, true, 7, 1⟩ : Mtx).type &&& _Mtx_recursive ≠ _Mtx_recursive) ∧
    depthOk (⟨1, true, 7, 1⟩ : Mtx) ∧
    (_Mtx_lock 7 ⟨1, true, 7, 1⟩).1 = ThrdResult.success ∧
    (_Mtx_lock 7 ⟨1, true, 7, 1⟩).2.count = 2 ∧
    ¬ depthOk (_Mtx_lock 7 ⟨1, true, 7, 1⟩).2 := by decide

/-- Claim C7 as amended: for a non-recursive mutex that takes the general
path (its mode word is not reduced to plain, i.e. it has try or timed
support), depth stays in {0, 1} across the public interface: any acquisition
(lock, try-lock, timed-lock, with any deadline and schedule) preserves it
unconditionally, unlock and disown preserve it under their precondition
`depth ≥ 1`, and reclaim preserves it from the disowned state `depth = 0`.
A plain (fast-path) non-recursive mutex can exceed depth 1 via the re-entrant
fast path, as the counterexample shows. -/
theorem C7_amended_nonrecursive_depth (check : Bool) (tid : Int) (m : Mtx)
    (target : Option Timespec) (clock : List Timespec) (xt : Timespec)
    (hgen : m.type &&& notRecursiveMask ≠ _Mtx_plain)
    (hrec : m.type &&& _Mtx_recursive ≠ _Mtx_recursive)
    (hok : depthOk m) :
    depthOk (mtx_do_lock tid m target clock).2 ∧
    depthOkOpt (_Mtx_trylock check tid m) ∧
    depthOkOpt (_Mtx_timedlock check tid m xt clock) ∧
    depthOkOpt (if 1 ≤ m.count then _Mtx_unlock check tid m else none) ∧
    depthOkMOpt (if 1 ≤ m.count then some (_Mtx_clear_owner m) else none) ∧
    depthOkMOpt (if m.count = 0 then some (_Mtx_reset_owner tid m) else none) := by
  have hdo : ∀ tgt clk, depthOk (mtx_do_lock tid m tgt clk).2 :=
    fun tgt clk => mtx_do_lock_depthOk tid m tgt clk hgen hrec hok
  refine ⟨hdo target clock, ?_, ?_, ?_, ?_, ?_⟩
  · unfold _Mtx_trylock
    by_cases ha : check = true ∧ m.type &&& (_Mtx_try ||| _Mtx_timed) = 0
    · rw [if_pos ha]; trivial
    · rw [if_neg ha]
      exact hdo _ _
  · unfold _Mtx_timedlock
    by_cases ha : check = true ∧ m.type &&& _Mtx_timed = 0
    · rw [if_pos ha]; trivial
    · rw [if_neg ha]
      show depthOk (if (mtx_do_lock tid m (some xt) clock).1 = ThrdResult.busy
        then (ThrdResult.timedout, (mtx_do_lock tid m (some xt) clock).2)
        else mtx_do_lock tid m (some xt) clock).2
      split
      · exact hdo _ _
      · exact hdo _ _
  · by_cases hc : 1 ≤ m.count
    · rw [if_pos hc]
      unfold _Mtx_unlock
      by_cases ha : check = true ∧ ¬(1 ≤ m.count ∧ m.thread_id = tid)
      · rw [if_pos ha]; trivial
      · rw [if_neg ha]
        have h1 : m.count = 1 := by
          unfold depthOk at hok; omega
        rw [if_pos (show ({ m with count := m.count - 1 } : Mtx).count = 0 by simp [h1])]
        simp only [depthOkOpt, depthOk, csUnlock]
        omega
    · rw [if_neg hc]; trivial
  · by_cases hc : 1 ≤ m.count
    · rw [if_pos hc]
      unfold depthOk at hok
      simp only [depthOkMOpt, depthOk, _Mtx_clear_owner]
      omega
    · rw [if_neg hc]; trivial
  · by_cases hc : m.count = 0
    · rw [if_pos hc]
      simp only [depthOkMOpt, depthOk, _Mtx_reset_owner]
      omega
    · rw [if_neg hc]; trivial

/-- Witness for the amended C7 at a freshly initialized timed non-recursive
mutex. -/
theorem C7_amended_nonrecursive_depth_witness :
    ((⟨5, false, -1, 0⟩ : Mtx).type &&& notRecursiveMask ≠ _Mtx_plain) ∧
    ((⟨5, false, -1, 0⟩ : Mtx).type &&& _Mtx_recursive ≠ _Mtx_recursive) ∧
    depthOk (⟨5, false, -1, 0⟩ : Mtx) ∧
    (depthOk (mtx_do_lock 7 ⟨5, false, -1, 0⟩ none []).2 ∧
      depthOkOpt (_Mtx_trylock true 7 ⟨5, false, -1, 0⟩) ∧
      depthOkOpt (_Mtx_timedlock true 7 ⟨5, false, -1, 0⟩ ⟨0, 0⟩ []) ∧
      depthOkOpt (if 1 ≤ (⟨5, false, -1, 0⟩ : Mtx).count
        then _Mtx_unlock true 7 ⟨5, false, -1, 0⟩ else none) ∧
      depthOkMOpt (if 1 ≤ (⟨5, false, -1, 0⟩ : Mtx).count
        then some (_Mtx_clear_owner ⟨5, false, -1, 0⟩) else none) ∧
      depthOkMOpt (if (⟨5, false, -1, 0⟩ : Mtx).count = 0
        then some (_Mtx_reset_owner 7 ⟨5, false, -1, 0⟩) else none)) :=
  ⟨by decide, by decide, Or.inl rfl,
    C7_amended_nonrecursive_depth true 7 ⟨5, false, -1, 0⟩ none [] ⟨0, 0⟩
      (by decide) (by decide) (Or.inl rfl)⟩

/-- Counterexample to claim C8: in a build without `_THREAD_CHECK` or
`_DEBUG` the assert expands to nothing (line 33); thread 7 unlocks a mutex
owned by thread 3 and the call silently continues and reports success instead
of aborting. -/
theorem C8_counterexample :
    (⟨5, true, 3, 1⟩ : Mtx).thread_id ≠ (7 : Int) ∧
    _Mtx_unlock false 7 ⟨5, true, 3, 1⟩ =
      some (ThrdResult.success, ⟨5, false, -1, 0⟩) := by decide

/-- Claim C8 as amended: when thread checking is compiled in (`_THREAD_CHECK`
or `_DEBUG`), an unlock by a context that is not the owner, or of a mutex at
depth 0, hits the "unlock of unowned mutex" assert and aborts; in an
unchecked build the assert is a no-op and the call silently continues. -/
theorem C8_amended_checked_abort (tid : Int) (m : Mtx)
    (hbad : ¬(1 ≤ m.count ∧ m.thread_id = tid)) :
    _Mtx_unlock true tid m = none := by
  unfold _Mtx_unlock
  rw [if_pos ⟨rfl, hbad⟩]

/-- Witness for the amended C8: checked-build unlock by non-owner thread 7
aborts. -/
theorem C8_amended_checked_abort_witness :
    ¬(1 ≤ (⟨5, true, 3, 1⟩ : Mtx).count ∧ (⟨5, true, 3, 1⟩ : Mtx).thread_id = 7) ∧
    _Mtx_unlock true 7 ⟨5, true, 3, 1⟩ = none :=
  ⟨by decide, C8_amended_checked_abort 7 ⟨5, true, 3, 1⟩ (by decide)⟩

/-- Claim C9: `_Mtx_init` reports no-memory (with a null handle) exactly when
allocation fails, and on success returns a mutex with the no-owner sentinel,
depth 0, the requested mode stored and an unlocked critical section; the two
allocator outcomes are the only possible results. -/
theorem C9_init_outcomes (type : Nat) :
    _Mtx_init false type = (ThrdResult.nomem, none) ∧
    _Mtx_init true type =
      (ThrdResult.success,
        some { type := type, csLocked := false, thread_id := -1, count := 0 }) :=
  ⟨rfl, rfl⟩

/-- Claim C10: `_Mtx_destroy` on a null handle performs no action and returns
normally in every build flavour; only a non-null handle triggers the in-situ
destruction followed by the deallocation (or the checked-build busy
abort). -/
theorem C10_destroy_null_noop (check : Bool) (h : Option Mtx) :
    _Mtx_destroy check none = some [] ∧
    (h = none ∨ _Mtx_destroy check h = none ∨
      _Mtx_destroy check h = some [DestroyAct.destroyInSitu, DestroyAct.free]) := by
  refine ⟨rfl, ?_⟩
  cases h with
  | none => left; rfl
  | some m =>
    right
    by_cases hb : check = true ∧ m.count ≠ 0
    · left
      simp [_Mtx_destroy, _Mtx_destroy_in_situ, hb]
    · right
      simp [_Mtx_destroy, _Mtx_destroy_in_situ, hb]
